import Mathlib

/-!
Verification of the ensemble-aggregation core of the `alz_app` repository
(`app/backend.py`: `run_all_analyses`, `predict_subject`) and of the
prediction-construction step of the modality simulation paths
(`app/mri_pet_module.py` / `app/eeg_module.py`).

Modelling conventions:
* Python floats are modelled as rationals (`ℚ`); floating-point rounding of
  arithmetic is not modelled, but the decimal rounding performed by
  `round(x, 3)` is modelled exactly (round-half-to-even on rationals).
* A Python value that may be a number or a string is a `PyVal`; an absent
  dictionary key or an explicit `None` is `Option.none` (both are falsy and
  neither matches a string comparison, which is all the code observes).
* `float(v)` is the partial function `pyFloat`; `Option.none` means the call
  raises (`ValueError`/`TypeError`).  String parsing models plain decimal
  literals with optional sign and fractional part; exponent forms and the
  special floats are not exercised by the repository's data and are treated
  as unparseable.
* The file system is a parameter `fs : String → Option (List CsvRow)`:
  `fs path` is the parsed row list of the CSV file at `path`, `none` when the
  open fails.  Rows are those produced by `csv.DictReader` over files written
  with the fixed header `subject_id, predicted_label, probability`; a `none`
  cell is a value the reader reports as missing (`float` of it raises, which
  the surrounding `try` converts to a failed lookup).
* A function that can raise an uncaught Python exception returns
  `Except String _`; the error string names the exception class.
-/

namespace Alz

/-- A dynamic Python value as stored in a summary or prediction dict:
either a number (Python int/float, modelled as `ℚ`) or a string. -/
inductive PyVal where
  | num (q : ℚ)
  | str (s : String)
deriving DecidableEq

/-- Truthiness of an optional Python value (`if summary.get(k):`):
absent/None is falsy, a number is truthy iff nonzero, a string is truthy
iff nonempty. -/
def pyTruthy : Option PyVal → Bool
  | none => false
  | some (PyVal.num q) => if q = 0 then false else true
  | some (PyVal.str s) => if s = "" then false else true

/-- Digit-string to natural number, `foldl (fun a c => a*10 + digit c) 0`. -/
def digitsToNat (cs : List Char) : ℕ :=
  cs.foldl (fun a c => a * 10 + (c.toNat - 48)) 0

/-- Split a character list at the first dot, returning the part before it and
(if a dot occurs) the part after it. -/
def splitAtDot : List Char → List Char × Option (List Char)
  | [] => ([], none)
  | c :: r =>
    if c = '.' then ([], some r)
    else
      let p := splitAtDot r
      (c :: p.1, p.2)

/-- Python `float(s)` on a string: optional sign, then digits with an optional
fractional part (`"7"`, `"0.25"`, `".5"`, `"3."`).  `none` models a raised
`ValueError`. -/
def parseFloat (s : String) : Option ℚ :=
  let cs := s.toList
  let sgn : ℚ × List Char :=
    match cs with
    | '-' :: r => (-1, r)
    | '+' :: r => (1, r)
    | r => (1, r)
  let parts := splitAtDot sgn.2
  match parts.2 with
  | none =>
    if parts.1 ≠ [] ∧ parts.1.all Char.isDigit then
      some (sgn.1 * digitsToNat parts.1)
    else none
  | some f =>
    if (parts.1 ≠ [] ∨ f ≠ []) ∧ parts.1.all Char.isDigit ∧ f.all Char.isDigit then
      some (sgn.1 * ((digitsToNat parts.1 : ℚ) + (digitsToNat f : ℚ) / 10 ^ f.length))
    else none

/-- Python `float(v)` on a dynamic value: a number converts to itself, a
string is parsed.  `none` models a raised exception. -/
def pyFloat : PyVal → Option ℚ
  | PyVal.num q => some q
  | PyVal.str s => parseFloat s

/-- One entry of a module's inline `predictions` list: a Python dict with
optional `subject_id`, `predicted_label` and `probability` keys
(`none` = key absent or `None`). -/
structure Pred where
  subject_id : Option String
  predicted_label : Option String
  probability : Option PyVal
deriving DecidableEq

/-- One row of a `<module>_predictions.csv` file as produced by
`csv.DictReader`: every cell is a string, or `none` when the reader reports
no value for the column. -/
structure CsvRow where
  subject_id : Option String
  predicted_label : Option String
  probability : Option String
deriving DecidableEq

/-- A module summary dict (`ModalityResult`) as consumed by
`predict_subject`: the keys it reads, with `none` for absent/None.
`metrics_auc` stands for `(summary.get("metrics") or {}).get("auc")`. -/
structure Summary where
  status : String
  predictions : Option (List Pred)
  predictions_path : Option String
  auc : Option PyVal
  accuracy : Option PyVal
  metrics_auc : Option PyVal
  interpretation : String
deriving DecidableEq

/-- The inline-predictions scan (backend.py lines 73-77): first entry whose
`subject_id` equals the queried id. -/
def findInline (sid : String) (preds : List Pred) : Option Pred :=
  preds.find? fun p => p.subject_id == some sid

/-- The CSV fallback (backend.py lines 80-89): first row whose `subject_id`
matches; its `probability` cell is converted with `float` immediately, and
any failure (missing value, unparseable string) is caught by the enclosing
`try`, yielding no prediction. -/
def csvLookup (sid : String) (rows : List CsvRow) : Option Pred :=
  match rows.find? (fun r => r.subject_id == some sid) with
  | none => none
  | some r =>
    match r.probability with
    | none => none
    | some cell =>
      match parseFloat cell with
      | none => none
      | some q =>
        some { subject_id := r.subject_id
               predicted_label := r.predicted_label
               probability := some (PyVal.num q) }

/-- Locating a subject's prediction in one modality (backend.py lines 70-89):
inline predictions first (the list must be truthy, i.e. nonempty), then the
CSV at `predictions_path` (the path must be truthy); `none` classifies the
modality as missing. -/
def lookupPred (fs : String → Option (List CsvRow)) (sid : String)
    (s : Summary) : Option Pred :=
  let inline :=
    match s.predictions with
    | some l => if l.isEmpty then none else findInline sid l
    | none => none
  match inline with
  | some p => some p
  | none =>
    match s.predictions_path with
    | none => none
    | some path =>
      if path = "" then none
      else
        match fs path with
        | none => none
        | some rows => csvLookup sid rows

/-- Extracting probability and label from a found prediction (backend.py
lines 94-95): `float(pred.get("probability", 0.0))` and
`pred.get("predicted_label")`.  `none` models an uncaught exception from
`float` on an unparseable inline value. -/
def procPred (p : Pred) : Option (ℚ × Option String) :=
  match p.probability with
  | none => some (0, p.predicted_label)
  | some v =>
    match pyFloat v with
    | none => none
    | some q => some (q, p.predicted_label)

/-- The weight fallback chain (backend.py lines 98-104): top-level `auc` if
truthy, else top-level `accuracy` if truthy, else `metrics.auc` if truthy,
else `1.0`; the chosen value goes through `float` (which can raise on a
truthy non-numeric string). -/
def modWeight (s : Summary) : Option ℚ :=
  if pyTruthy s.auc then s.auc.bind pyFloat
  else if pyTruthy s.accuracy then s.accuracy.bind pyFloat
  else if pyTruthy s.metrics_auc then s.metrics_auc.bind pyFloat
  else some 1

/-- A `per_module` report entry: `{status:"ok", probability, label}` or
`{status:"missing", interpretation}`. -/
inductive ModEntry where
  | ok (probability : ℚ) (lbl : Option String)
  | missing (interpretation : String)
deriving DecidableEq

/-- Whether a `per_module` entry has status `"missing"`. -/
def ModEntry.isMissing : ModEntry → Bool
  | ModEntry.missing _ => true
  | ModEntry.ok _ _ => false

/-- The mutable accumulators of the aggregation loop (backend.py lines
64-67): `per_module`, `probs`, `weights`, `missing`; dict insertion order is
kept as list order. -/
structure AggSt where
  per_module : List (String × ModEntry)
  probs : List ℚ
  weights : List ℚ
  missing : List String
deriving DecidableEq

/-- The empty accumulator state at loop entry. -/
def initSt : AggSt := { per_module := [], probs := [], weights := [], missing := [] }

/-- One iteration of the aggregation loop (backend.py lines 69-106) for one
`(name, summary)` pair: a failed lookup records a missing entry; a found
prediction is parsed (possibly raising), weighted, and accumulated. -/
def stepMod (fs : String → Option (List CsvRow)) (sid : String) (st : AggSt)
    (entry : String × Summary) : Except String AggSt :=
  match lookupPred fs sid entry.2 with
  | none =>
    Except.ok { st with
                per_module := st.per_module ++ [(entry.1, ModEntry.missing entry.2.interpretation)]
                missing := st.missing ++ [entry.1] }
  | some p =>
    match procPred p with
    | none => Except.error "ValueError"
    | some pl =>
      match modWeight entry.2 with
      | none => Except.error "ValueError"
      | some w =>
        Except.ok { st with
                    per_module := st.per_module ++ [(entry.1, ModEntry.ok pl.1 pl.2)]
                    probs := st.probs ++ [pl.1 * w]
                    weights := st.weights ++ [w] }

/-- The aggregation loop over the results mapping in iteration order. -/
def aggLoop (fs : String → Option (List CsvRow)) (sid : String) :
    List (String × Summary) → AggSt → Except String AggSt
  | [], st => Except.ok st
  | x :: xs, st =>
    match stepMod fs sid st x with
    | Except.error e => Except.error e
    | Except.ok st2 => aggLoop fs sid xs st2

/-- The `ensemble` part of a subject report (backend.py lines 108-116). -/
structure Ensemble where
  available_modules : ℕ
  missing_modules : List String
  probability : Option ℚ
  lbl : String
deriving DecidableEq

/-- The subject report returned by `predict_subject` (minus the fixed verdict
text, disclaimer and report path, which are derived from these fields). -/
structure Report where
  subject_id : String
  per_module : List (String × ModEntry)
  ensemble : Ensemble
  final_label : String
deriving DecidableEq

/-- `predict_subject(subject_id, results, threshold)` (backend.py lines
51-144): aggregate per-module predictions into a weighted-average ensemble
probability and label.  The results mapping is a list of `(name, summary)`
pairs in dict iteration order; `Except.error` models an uncaught Python
exception (`ValueError` from `float`, or `ZeroDivisionError` when the
weights are nonempty but sum to zero). -/
def predict_subject (fs : String → Option (List CsvRow)) (subject_id : String)
    (results : List (String × Summary)) (threshold : ℚ) : Except String Report :=
  match aggLoop fs subject_id results initSt with
  | Except.error e => Except.error e
  | Except.ok st =>
    if st.weights.isEmpty then
      Except.ok
        { subject_id := subject_id
          per_module := st.per_module
          ensemble := { available_modules := st.weights.length
                        missing_modules := st.missing
                        probability := none
                        lbl := "unknown" }
          final_label := "unknown" }
    else
      if st.weights.sum = 0 then Except.error "ZeroDivisionError"
      else
        Except.ok
          { subject_id := subject_id
            per_module := st.per_module
            ensemble := { available_modules := st.weights.length
                          missing_modules := st.missing
                          probability := some (st.probs.sum / st.weights.sum)
                          lbl := if threshold ≤ st.probs.sum / st.weights.sum then "AD" else "CN" }
            final_label := if threshold ≤ st.probs.sum / st.weights.sum then "AD" else "CN" }

/-- The fixed module sequence of `run_all_analyses` (backend.py lines 20-26). -/
def moduleNames : List String := ["mri_pet", "eeg", "adni", "tadpole", "proteomics"]

/-- The summary the orchestrator substitutes when a module raises
(backend.py line 37): only `status` and `interpretation` keys. -/
def mkErrorSummary (e : String) : Summary :=
  { status := "error"
    predictions := none
    predictions_path := none
    auc := none
    accuracy := none
    metrics_auc := none
    interpretation := "Module raised exception: " ++ e }

/-- `run_all_analyses` (backend.py lines 13-48), with each module function's
behaviour a parameter `f : name ↦ (returned summary or raised exception)`:
run the fixed sequence, converting a raise into an error summary; progress
hooks and the aggregate JSON write are side effects with no effect on the
returned mapping. -/
def run_all_analyses (f : String → Except String Summary) : List (String × Summary) :=
  moduleNames.map fun n =>
    (n, match f n with
        | Except.ok s => s
        | Except.error e => mkErrorSummary e)

/-- Clamping of a simulated raw gaussian draw
(`min(0.99, max(0.01, random.gauss(base, sigma)))`, mri_pet_module.py line
118 / eeg_module.py line 88). -/
def clampProb (g : ℚ) : ℚ := min (99 / 100) (max (1 / 100) g)

/-- Python `round` to an integer: nearest, ties to the even integer. -/
def roundHalfEven (q : ℚ) : ℤ :=
  let f := ⌊q⌋
  let r := q - f
  if r < 1 / 2 then f
  else if 1 / 2 < r then f + 1
  else if f % 2 = 0 then f else f + 1

/-- Python `round(x, 3)`: nearest multiple of `1/1000`, ties to even. -/
def round3 (q : ℚ) : ℚ := (roundHalfEven (1000 * q) : ℚ) / 1000

/-- One simulated prediction entry as built by the simulation path of
`run_mri_pet` (mri_pet_module.py lines 117-120) and `run_eeg`
(eeg_module.py lines 87-90): the label is derived from the clamped
probability at threshold 0.5, while the stored probability is the clamped
value rounded to 3 decimal places.  `g` is the raw `random.gauss` draw. -/
def simPredEntry (sid : String) (g : ℚ) : Pred :=
  let prob := clampProb g
  { subject_id := some sid
    predicted_label := some (if 1 / 2 ≤ prob then "AD" else "CN")
    probability := some (PyVal.num (round3 prob)) }

/-- The claimed label/probability invariant of a stored SubjectPrediction:
label `"AD"` exactly when the stored probability is at least 0.5. -/
def labelProbInvariant (p : Pred) : Prop :=
  p.predicted_label = some "AD" ↔
    ∃ q, p.probability = some (PyVal.num q) ∧ 1 / 2 ≤ q

/-- Spec-side helper (§4.1 step 3): a numeric metric value is kept only when
truthy, i.e. present and nonzero. -/
def truthyQ : Option ℚ → Option ℚ
  | none => none
  | some q => if q = 0 then none else some q

/-- Modelled from the spec's words (§4.1 step 3): the weight fallback chain
over numeric metrics — `auc` if present and nonzero, else `accuracy` if
present and nonzero, else `metrics.auc` if present and nonzero, else 1.
Declared only to compare `modWeight` (translated from the code) against the
chain the spec describes. -/
def specWeight (a acc m : Option ℚ) : ℚ :=
  match truthyQ a with
  | some w => w
  | none =>
    match truthyQ acc with
    | some w => w
    | none =>
      match truthyQ m with
      | some w => w
      | none => 1

/-- The spec's data-model precondition that a summary's metric values are
numbers (ModalityResult `metrics`: "named numeric performance indicators"). -/
def numericMetrics (s : Summary) : Prop :=
  (∀ v, s.auc = some v → ∃ q, v = PyVal.num q) ∧
  (∀ v, s.accuracy = some v → ∃ q, v = PyVal.num q) ∧
  (∀ v, s.metrics_auc = some v → ∃ q, v = PyVal.num q)

/-- A summary holding one inline prediction for subject `sid`, with no
metrics (weight defaults to 1). -/
def inlineSummary (sid : String) (prob : ℚ) (lbl : String) : Summary :=
  { status := "success"
    predictions := some [{ subject_id := some sid
                           predicted_label := some lbl
                           probability := some (PyVal.num prob) }]
    predictions_path := none
    auc := none
    accuracy := none
    metrics_auc := none
    interpretation := "demo" }

/-- A summary whose only prediction for subject `"S1"` carries an
unparseable inline probability string. -/
def malformedSummary : Summary :=
  { status := "success"
    predictions := some [{ subject_id := some "S1"
                           predicted_label := some "AD"
                           probability := some (PyVal.str "oops") }]
    predictions_path := none
    auc := none
    accuracy := none
    metrics_auc := none
    interpretation := "" }

/-- A summary that only points at the CSV file `"preds.csv"`. -/
def csvOnlySummary : Summary :=
  { status := "success"
    predictions := none
    predictions_path := some "preds.csv"
    auc := none
    accuracy := none
    metrics_auc := none
    interpretation := "csv only" }

/-- A file system with one predictions CSV whose row for `"S1"` has an
unparseable probability cell. -/
def malformedCsvFs : String → Option (List CsvRow) := fun p =>
  if p = "preds.csv" then
    some [{ subject_id := some "S1", predicted_label := some "AD", probability := some "zzz" }]
  else none

/-- A summary with one inline prediction for `"S1"` (probability 0.3) and a
numeric top-level `auc` of 0.9, so the derived weight is 0.9. -/
def weightedSummary : Summary :=
  { status := "success"
    predictions := some [{ subject_id := some "S1"
                           predicted_label := some "CN"
                           probability := some (PyVal.num (3 / 10)) }]
    predictions_path := none
    auc := some (PyVal.num (9 / 10))
    accuracy := none
    metrics_auc := none
    interpretation := "" }

/-- The inline prediction entry held by `weightedSummary`. -/
def weightedSummaryPred : Pred :=
  { subject_id := some "S1"
    predicted_label := some "CN"
    probability := some (PyVal.num (3 / 10)) }

/-- The report of `predict_subject (fun _ => none) "S1"
[("m", inlineSummary "S1" (1/2))] (1/2)`: one contributing modality at the
exact threshold. -/
def boundaryReport : Report :=
  { subject_id := "S1"
    per_module := [("m", ModEntry.ok (1 / 2) (some "AD"))]
    ensemble := { available_modules := 1
                  missing_modules := []
                  probability := some (1 / 2)
                  lbl := "AD" }
    final_label := "AD" }

/-- The report of `predict_subject (fun _ => none) "S2"
[("m", inlineSummary "S2" (2/5))] (1/2)`. -/
def repeatedReport : Report :=
  { subject_id := "S2"
    per_module := [("m", ModEntry.ok (2 / 5) (some "CN"))]
    ensemble := { available_modules := 1
                  missing_modules := []
                  probability := some (2 / 5)
                  lbl := "CN" }
    final_label := "CN" }

/-- A two-modality results mapping: `"m"` contributes for subject `"S1"`,
`"x"` holds a prediction only for a different subject. -/
def c10Results : List (String × Summary) :=
  [("m", weightedSummary), ("x", inlineSummary "ZZ" (1 / 2) "AD")]

/-- The report of `predict_subject (fun _ => none) "S1"
[("m", weightedSummary)] (1/2)`: a single contributing modality with
probability 0.3 and weight 0.9. -/
def weightedReport : Report :=
  { subject_id := "S1"
    per_module := [("m", ModEntry.ok (3 / 10) (some "CN"))]
    ensemble := { available_modules := 1
                  missing_modules := []
                  probability := some (3 / 10)
                  lbl := "CN" }
    final_label := "CN" }

/-- The report of `predict_subject (fun _ => none) "S1"
[("m", weightedSummary), ("x", inlineSummary "ZZ" (1/2))] (1/2)`: one
contributing modality and one missing one. -/
def partitionReport : Report :=
  { subject_id := "S1"
    per_module := [("m", ModEntry.ok (3 / 10) (some "CN")), ("x", ModEntry.missing "demo")]
    ensemble := { available_modules := 1
                  missing_modules := ["x"]
                  probability := some (3 / 10)
                  lbl := "CN" }
    final_label := "CN" }

end Alz

namespace Alz

/-- Case analysis on one successful loop iteration: either the lookup failed
and a missing entry was recorded, or a prediction was found, parsed and
weighted. -/
lemma stepMod_ok_cases (fs : String → Option (List CsvRow)) (sid : String)
    (st : AggSt) (x : String × Summary) (st2 : AggSt)
    (h : stepMod fs sid st x = Except.ok st2) :
    (lookupPred fs sid x.2 = none ∧
      st2 = { st with
              per_module := st.per_module ++ [(x.1, ModEntry.missing x.2.interpretation)]
              missing := st.missing ++ [x.1] }) ∨
    (∃ p pr lbl w, lookupPred fs sid x.2 = some p ∧ procPred p = some (pr, lbl) ∧
      modWeight x.2 = some w ∧
      st2 = { st with
              per_module := st.per_module ++ [(x.1, ModEntry.ok pr lbl)]
              probs := st.probs ++ [pr * w]
              weights := st.weights ++ [w] }) := by
  cases hl : lookupPred fs sid x.2 with
  | none =>
    simp only [stepMod, hl, Except.ok.injEq] at h
    exact Or.inl ⟨rfl, h.symm⟩
  | some p =>
    cases hp : procPred p with
    | none => simp [stepMod, hl, hp] at h
    | some pl =>
      cases hw : modWeight x.2 with
      | none => simp [stepMod, hl, hp, hw] at h
      | some w =>
        simp only [stepMod, hl, hp, hw, Except.ok.injEq] at h
        exact Or.inr ⟨p, pl.1, pl.2, w, rfl, by rw [hp], rfl, h.symm⟩

/-- When every modality's lookup fails, the loop succeeds, leaves `probs` and
`weights` untouched, and appends every modality name to `missing`. -/
lemma aggLoop_allMissing (fs : String → Option (List CsvRow)) (sid : String) :
    ∀ (xs : List (String × Summary)) (st : AggSt),
      (∀ x ∈ xs, lookupPred fs sid x.2 = none) →
      ∃ st2, aggLoop fs sid xs st = Except.ok st2 ∧
        st2.weights = st.weights ∧ st2.probs = st.probs ∧
        st2.missing = st.missing ++ xs.map Prod.fst := by
  intro xs
  induction xs with
  | nil =>
    intro st _
    exact ⟨st, rfl, rfl, rfl, by simp⟩
  | cons x xs ih =>
    intro st h
    have hx : lookupPred fs sid x.2 = none := h x (by simp)
    obtain ⟨st2, h1, h2, h3, h4⟩ := ih
      { st with
        per_module := st.per_module ++ [(x.1, ModEntry.missing x.2.interpretation)]
        missing := st.missing ++ [x.1] }
      (fun y hy => h y (by simp [hy]))
    refine ⟨st2, ?_, by simpa using h2, by simpa using h3, ?_⟩
    · simpa [aggLoop, stepMod, hx] using h1
    · simpa [List.append_assoc] using h4

/-- The loop over a concatenation runs the first part, then the second from
the state it produced (or propagates its exception). -/
lemma aggLoop_append (fs : String → Option (List CsvRow)) (sid : String) :
    ∀ (xs ys : List (String × Summary)) (st : AggSt),
      aggLoop fs sid (xs ++ ys) st
        = match aggLoop fs sid xs st with
          | Except.error e => Except.error e
          | Except.ok st2 => aggLoop fs sid ys st2 := by
  intro xs
  induction xs with
  | nil => intro ys st; rfl
  | cons x xs ih =>
    intro ys st
    show aggLoop fs sid (x :: (xs ++ ys)) st = _
    cases hstep : stepMod fs sid st x with
    | error e => simp [aggLoop, hstep]
    | ok st2 => simp [aggLoop, hstep, ih]

end Alz

namespace Alz

/-- Shape of a successful `predict_subject` call: the report's fields are
determined by the final loop state, with the two combination branches. -/
lemma predict_subject_ok_shape (fs : String → Option (List CsvRow)) (sid : String)
    (results : List (String × Summary)) (t : ℚ) (r : Report)
    (h : predict_subject fs sid results t = Except.ok r) :
    ∃ st, aggLoop fs sid results initSt = Except.ok st ∧
      r.per_module = st.per_module ∧
      r.ensemble.available_modules = st.weights.length ∧
      r.ensemble.missing_modules = st.missing ∧
      ((st.weights = [] ∧ r.ensemble.probability = none ∧ r.ensemble.lbl = "unknown" ∧
        r.final_label = "unknown") ∨
       (st.weights ≠ [] ∧ st.weights.sum ≠ 0 ∧
        r.ensemble.probability = some (st.probs.sum / st.weights.sum) ∧
        r.ensemble.lbl = (if t ≤ st.probs.sum / st.weights.sum then "AD" else "CN") ∧
        r.final_label = r.ensemble.lbl)) := by
  unfold predict_subject at h
  cases ha : aggLoop fs sid results initSt with
  | error e => rw [ha] at h; cases h
  | ok st =>
    rw [ha] at h
    dsimp only at h
    refine ⟨st, rfl, ?_⟩
    by_cases he : st.weights.isEmpty
    · rw [if_pos he] at h
      injection h with h
      subst h
      exact ⟨rfl, rfl, rfl, Or.inl ⟨List.isEmpty_iff.mp he, rfl, rfl, rfl⟩⟩
    · rw [if_neg he] at h
      by_cases hz : st.weights.sum = 0
      · rw [if_pos hz] at h; cases h
      · rw [if_neg hz] at h
        injection h with h
        subst h
        refine ⟨rfl, rfl, rfl, Or.inr ⟨?_, hz, rfl, rfl, rfl⟩⟩
        intro hnil
        exact he (by simp [hnil])

end Alz

namespace Alz

/-- Structural bookkeeping of the loop: processed names append to
`per_module` in order, each iteration grows `weights` or `missing` by exactly
one entry, and `missing` stays the list of names of missing entries. -/
lemma aggLoop_struct (fs : String → Option (List CsvRow)) (sid : String) :
    ∀ (xs : List (String × Summary)) (st st2 : AggSt),
      aggLoop fs sid xs st = Except.ok st2 →
      st2.per_module.map Prod.fst = st.per_module.map Prod.fst ++ xs.map Prod.fst ∧
      st2.weights.length + st2.missing.length
        = st.weights.length + st.missing.length + xs.length ∧
      (st.missing = (st.per_module.filter (fun y => y.2.isMissing)).map Prod.fst →
        st2.missing = (st2.per_module.filter (fun y => y.2.isMissing)).map Prod.fst) := by
  intro xs
  induction xs with
  | nil =>
    intro st st2 h
    cases h
    exact ⟨by simp, by simp, fun hm => hm⟩
  | cons x xs ih =>
    intro st st2 h
    rw [aggLoop] at h
    cases hstep : stepMod fs sid st x with
    | error e => rw [hstep] at h; cases h
    | ok st1 =>
      rw [hstep] at h
      dsimp only at h
      obtain ⟨h1, h2, h3⟩ := ih st1 st2 h
      rcases stepMod_ok_cases fs sid st x st1 hstep with
        ⟨_, hst1⟩ | ⟨p, pr, lbl, w, _, _, _, hst1⟩
      · subst hst1
        refine ⟨by simpa [List.append_assoc] using h1, by simpa [Nat.add_assoc, Nat.add_comm,
          Nat.add_left_comm] using h2, fun hm => h3 ?_⟩
        simp [List.filter_append, ModEntry.isMissing, hm]
      · subst hst1
        refine ⟨by simpa [List.append_assoc] using h1, by simpa [Nat.add_assoc, Nat.add_comm,
          Nat.add_left_comm] using h2, fun hm => h3 ?_⟩
        simp [List.filter_append, ModEntry.isMissing, hm]

end Alz

namespace Alz

/-- Numeric invariant of the loop: when every found probability lies in
[0,1] and every derived weight is positive, the accumulated weighted sum
stays between 0 and the weight sum, and all weights stay positive. -/
lemma aggLoop_bounds (fs : String → Option (List CsvRow)) (sid : String) :
    ∀ (xs : List (String × Summary)) (st st2 : AggSt),
      aggLoop fs sid xs st = Except.ok st2 →
      (∀ x ∈ xs, ∀ p pr lbl, lookupPred fs sid x.2 = some p →
        procPred p = some (pr, lbl) → 0 ≤ pr ∧ pr ≤ 1) →
      (∀ x ∈ xs, ∀ w, modWeight x.2 = some w → 0 < w) →
      (∀ w ∈ st.weights, 0 < w) → 0 ≤ st.probs.sum → st.probs.sum ≤ st.weights.sum →
      (∀ w ∈ st2.weights, 0 < w) ∧ 0 ≤ st2.probs.sum ∧ st2.probs.sum ≤ st2.weights.sum := by
  intro xs
  induction xs with
  | nil =>
    intro st st2 h _ _ hw hp0 hp1
    cases h
    exact ⟨hw, hp0, hp1⟩
  | cons x xs ih =>
    intro st st2 h hbp hbw hw hp0 hp1
    rw [aggLoop] at h
    cases hstep : stepMod fs sid st x with
    | error e => rw [hstep] at h; cases h
    | ok st1 =>
      rw [hstep] at h
      dsimp only at h
      have hbpx : ∀ x2 ∈ xs, ∀ p pr lbl, lookupPred fs sid x2.2 = some p →
          procPred p = some (pr, lbl) → 0 ≤ pr ∧ pr ≤ 1 :=
        fun x2 hx2 => hbp x2 (by simp [hx2])
      have hbwx : ∀ x2 ∈ xs, ∀ w, modWeight x2.2 = some w → 0 < w :=
        fun x2 hx2 => hbw x2 (by simp [hx2])
      rcases stepMod_ok_cases fs sid st x st1 hstep with
        ⟨_, hst1⟩ | ⟨p, pr, lbl, w, hlp, hpp, hmw, hst1⟩
      · subst hst1
        exact ih _ st2 h hbpx hbwx hw hp0 hp1
      · subst hst1
        have hwpos : 0 < w := hbw x (by simp) w hmw
        have hpr : 0 ≤ pr ∧ pr ≤ 1 := hbp x (by simp) p pr lbl hlp hpp
        refine ih _ st2 h hbpx hbwx ?_ ?_ ?_
        · intro w2 hw2
          rcases List.mem_append.mp hw2 with h2 | h2
          · exact hw w2 h2
          · simp at h2
            exact h2 ▸ hwpos
        · simp only [List.sum_append, List.sum_cons, List.sum_nil, add_zero]
          have : 0 ≤ pr * w := mul_nonneg hpr.1 (le_of_lt hwpos)
          linarith
        · simp only [List.sum_append, List.sum_cons, List.sum_nil, add_zero]
          have : pr * w ≤ 1 * w := mul_le_mul_of_nonneg_right hpr.2 (le_of_lt hwpos)
          rw [one_mul] at this
          linarith

/-- Under the spec's numeric-metrics data model, the weight chain always
yields a weight, and that weight is nonzero. -/
lemma modWeight_numeric (s : Summary) (h : numericMetrics s) :
    ∃ w, modWeight s = some w ∧ w ≠ 0 := by
  obtain ⟨ha, hacc, hm⟩ := h
  unfold modWeight
  cases hau : s.auc with
  | some v =>
    obtain ⟨q, rfl⟩ := ha v hau
    by_cases hq : q = 0
    · subst hq
      simp only [pyTruthy, if_pos rfl, Bool.false_eq_true, if_false]
      cases hac : s.accuracy with
      | some v2 =>
        obtain ⟨q2, rfl⟩ := hacc v2 hac
        by_cases hq2 : q2 = 0
        · subst hq2
          simp only [pyTruthy, if_pos rfl, Bool.false_eq_true, if_false]
          cases hmu : s.metrics_auc with
          | some v3 =>
            obtain ⟨q3, rfl⟩ := hm v3 hmu
            by_cases hq3 : q3 = 0
            · subst hq3
              simp [pyTruthy]
            · simp [pyTruthy, hq3, Option.bind, pyFloat]
          | none => simp [pyTruthy]
        · simp [pyTruthy, hq2, Option.bind, pyFloat]
      | none =>
        simp only [pyTruthy, Bool.false_eq_true, if_false]
        cases hmu : s.metrics_auc with
        | some v3 =>
          obtain ⟨q3, rfl⟩ := hm v3 hmu
          by_cases hq3 : q3 = 0
          · subst hq3
            simp [pyTruthy]
          · simp [pyTruthy, hq3, Option.bind, pyFloat]
        | none => simp [pyTruthy]
    · simp [pyTruthy, hq, Option.bind, pyFloat]
  | none =>
    simp only [pyTruthy, Bool.false_eq_true, if_false]
    cases hac : s.accuracy with
    | some v2 =>
      obtain ⟨q2, rfl⟩ := hacc v2 hac
      by_cases hq2 : q2 = 0
      · subst hq2
        simp only [pyTruthy, if_pos rfl, Bool.false_eq_true, if_false]
        cases hmu : s.metrics_auc with
        | some v3 =>
          obtain ⟨q3, rfl⟩ := hm v3 hmu
          by_cases hq3 : q3 = 0
          · subst hq3
            simp [pyTruthy]
          · simp [pyTruthy, hq3, Option.bind, pyFloat]
        | none => simp [pyTruthy]
      · simp [pyTruthy, hq2, Option.bind, pyFloat]
    | none =>
      simp only [pyTruthy, Bool.false_eq_true, if_false]
      cases hmu : s.metrics_auc with
      | some v3 =>
        obtain ⟨q3, rfl⟩ := hm v3 hmu
        by_cases hq3 : q3 = 0
        · subst hq3
          simp [pyTruthy]
        · simp [pyTruthy, hq3, Option.bind, pyFloat]
      | none => simp [pyTruthy]

end Alz

namespace Alz

/-- C1: for every modality whose prediction is found, `predict_subject`
derives the aggregation weight by the fallback chain — top-level `auc` if
present and truthy, else top-level `accuracy` if present and truthy, else
nested `metrics.auc` if present and truthy, else 1.0 — with zero-valued
metrics treated as absent: over numeric metric fields `modWeight` (the
code's weight computation) equals `specWeight` (the chain as the spec words
it), and in particular `auc = 0` with `accuracy = 0.7` yields weight 0.7. -/
theorem C1_weight_fallback_chain :
    (∀ (a acc m : Option ℚ) (st : String) (pr : Option (List Pred))
        (pp : Option String) (i : String),
      modWeight (Summary.mk st pr pp (a.map PyVal.num) (acc.map PyVal.num)
        (m.map PyVal.num) i) = some (specWeight a acc m)) ∧
    modWeight (Summary.mk "success" none none (some (PyVal.num 0))
      (some (PyVal.num (7 / 10))) none "") = some (7 / 10) := by
  constructor
  · intro a acc m st pr pp i
    rcases a with _ | qa <;> rcases acc with _ | qacc <;> rcases m with _ | qm <;>
      simp only [modWeight, specWeight, truthyQ, pyTruthy, pyFloat, Option.map_none,
        Option.map_some, Option.bind, Option.map, Option.some_bind] <;>
      split_ifs <;> simp_all [pyFloat]
  · norm_num [modWeight, pyTruthy, pyFloat]

end Alz

namespace Alz

/-- C2: when no modality contributes a prediction for the queried subject
(the all-missing case), `predict_subject` returns a report — never a raised
fault — whose ensemble probability is `None` and whose labels are
`"unknown"`. -/
theorem C2_all_missing_returns_unknown (fs : String → Option (List CsvRow))
    (sid : String) (results : List (String × Summary)) (t : ℚ)
    (h : ∀ x ∈ results, lookupPred fs sid x.2 = none) :
    (predict_subject fs sid results t).map
      (fun r => (r.ensemble.probability, r.ensemble.lbl, r.final_label))
      = Except.ok (none, "unknown", "unknown") := by
  obtain ⟨st2, h1, h2, h3, h4⟩ := aggLoop_allMissing fs sid results initSt h
  have hw : st2.weights = [] := by simpa [initSt] using h2
  unfold predict_subject
  rw [h1]
  simp [hw, Except.map]

/-- Witness for C2: no modality holds a prediction for subject `"SUBJ999"`. -/
theorem C2_witness :
    (predict_subject (fun _ => none) "SUBJ999"
        [("mri_pet", inlineSummary "SUBJ001" (9 / 10) "AD")] (1 / 2)).map
      (fun r => (r.ensemble.probability, r.ensemble.lbl, r.final_label))
      = Except.ok (none, "unknown", "unknown") :=
  C2_all_missing_returns_unknown _ _ _ _ (by decide)

/-- C3: with at least one contributing modality, an ensemble probability
exactly equal to the threshold classifies as `"AD"`: the comparison in
`predict_subject` is `>=`, not strict `>`. -/
theorem C3_threshold_boundary_is_AD (fs : String → Option (List CsvRow))
    (sid : String) (results : List (String × Summary)) (t : ℚ) (r : Report)
    (hok : predict_subject fs sid results t = Except.ok r)
    (hp : r.ensemble.probability = some t) :
    r.ensemble.lbl = "AD" ∧ r.final_label = "AD" := by
  obtain ⟨st, _, _, _, _, hcase⟩ := predict_subject_ok_shape fs sid results t r hok
  rcases hcase with ⟨_, hnone, _, _⟩ | ⟨_, _, hprob, hlbl, hfin⟩
  · rw [hp] at hnone; cases hnone
  · rw [hp] at hprob
    injection hprob with he
    rw [← he] at hlbl
    simp only [le_refl, if_true] at hlbl
    exact ⟨hlbl, hfin.trans hlbl⟩

/-- Witness for C3: one modality contributing probability 0.5 against
threshold 0.5 is labelled `"AD"`. -/
theorem C3_witness : boundaryReport.ensemble.lbl = "AD" ∧ boundaryReport.final_label = "AD" :=
  C3_threshold_boundary_is_AD (fun _ => none) "S1"
    [("m", inlineSummary "S1" (1 / 2) "AD")] (1 / 2) boundaryReport
    (by norm_num [predict_subject, aggLoop, stepMod,
      show lookupPred (fun _ => none) "S1" (inlineSummary "S1" (1 / 2) "AD") = some { subject_id := some "S1", predicted_label := some "AD", probability := some (PyVal.num (1 / 2)) } by rfl,
      show procPred { subject_id := some "S1", predicted_label := some "AD", probability := some (PyVal.num (1 / 2)) } = some (1 / 2, some "AD") by rfl,
      show modWeight (inlineSummary "S1" (1 / 2) "AD") = some 1 by rfl,
      initSt, boundaryReport])
    (by norm_num [boundaryReport])

end Alz

namespace Alz

/-- C4: for every call in which exactly one modality contributes — the
results mapping splits as `pre ++ (n, s) :: post` with every other
modality's lookup failing, the contributor's lookup yielding a prediction
parsed to probability `pr`, and its metric fields numeric as the data model
requires, so the derived weight is nonzero — the returned ensemble
probability equals `pr`: the weight cancels in `(pr*w)/w`. -/
theorem C4_single_modality_weight_cancels (fs : String → Option (List CsvRow))
    (sid n : String) (s : Summary) (t : ℚ)
    (pre post : List (String × Summary)) (p : Pred) (pr : ℚ) (lbl : Option String)
    (hpre : ∀ x ∈ pre, lookupPred fs sid x.2 = none)
    (hpost : ∀ x ∈ post, lookupPred fs sid x.2 = none)
    (hl : lookupPred fs sid s = some p)
    (hp : procPred p = some (pr, lbl))
    (hnum : numericMetrics s) :
    (predict_subject fs sid (pre ++ (n, s) :: post) t).map
      (fun r => r.ensemble.probability) = Except.ok (some pr) := by
  obtain ⟨w, hw, hw0⟩ := modWeight_numeric s hnum
  obtain ⟨st1, hpre1, hw1, hp1, _⟩ := aggLoop_allMissing fs sid pre initSt hpre
  have hw1e : st1.weights = [] := by simpa [initSt] using hw1
  have hp1e : st1.probs = [] := by simpa [initSt] using hp1
  have hstep : stepMod fs sid st1 (n, s) = Except.ok
      (AggSt.mk (st1.per_module ++ [(n, ModEntry.ok pr lbl)])
        (st1.probs ++ [pr * w]) (st1.weights ++ [w]) st1.missing) := by
    simp [stepMod, hl, hp, hw]
  obtain ⟨st3, hpost1, hw3, hp3, _⟩ := aggLoop_allMissing fs sid post
    (AggSt.mk (st1.per_module ++ [(n, ModEntry.ok pr lbl)])
      (st1.probs ++ [pr * w]) (st1.weights ++ [w]) st1.missing) hpost
  have hone : aggLoop fs sid [(n, s)] st1 = Except.ok
      (AggSt.mk (st1.per_module ++ [(n, ModEntry.ok pr lbl)])
        (st1.probs ++ [pr * w]) (st1.weights ++ [w]) st1.missing) := by
    simp [aggLoop, hstep]
  have hloop : aggLoop fs sid (pre ++ (n, s) :: post) initSt = Except.ok st3 := by
    have hsplit : pre ++ (n, s) :: post = pre ++ ([(n, s)] ++ post) := by simp
    rw [hsplit, aggLoop_append fs sid pre ([(n, s)] ++ post) initSt, hpre1]
    dsimp only
    rw [aggLoop_append fs sid [(n, s)] post st1, hone]
    exact hpost1
  have hw3e : st3.weights = [w] := by rw [hw3]; simp [hw1e]
  have hp3e : st3.probs = [pr * w] := by rw [hp3]; simp [hp1e]
  have hdiv : pr * w / w = pr := by
    rw [mul_div_assoc, div_self hw0, mul_one]
  unfold predict_subject
  rw [hloop]
  simp [Except.map, hw3e, hp3e, hw0, hdiv]

/-- Witness for C4: three modalities, of which only `"m"` (probability 0.3,
auc-derived weight 0.9) contributes for subject `"S1"`; the modalities
before and after it are missing, and the ensemble probability is exactly
0.3. -/
theorem C4_witness :
    (predict_subject (fun _ => none) "S1"
        ([("a", inlineSummary "ZZ" (1 / 2) "AD")]
          ++ ("m", weightedSummary) :: [("z", inlineSummary "QQ" (1 / 2) "AD")]) (1 / 2)).map
      (fun r => r.ensemble.probability) = Except.ok (some (3 / 10)) :=
  C4_single_modality_weight_cancels (fun _ => none) "S1" "m" weightedSummary (1 / 2)
    [("a", inlineSummary "ZZ" (1 / 2) "AD")] [("z", inlineSummary "QQ" (1 / 2) "AD")]
    weightedSummaryPred (3 / 10) (some "CN")
    (by decide) (by decide) (by rfl) (by rfl)
    (by
      refine ⟨?_, ?_, ?_⟩
      · intro v hv
        simp only [weightedSummary, Option.some.injEq] at hv
        exact ⟨9 / 10, hv.symm⟩
      · intro v hv
        simp [weightedSummary] at hv
      · intro v hv
        simp [weightedSummary] at hv)

end Alz

namespace Alz

/-- Concrete weight evaluation: `weightedSummary`'s truthy `auc` of 0.9 is
the derived weight. -/
lemma modWeight_weightedSummary : modWeight weightedSummary = some (9 / 10) := by
  norm_num [modWeight, pyTruthy, weightedSummary, pyFloat]

/-- C5 evaluation at the failing input: a prediction whose inline
`probability` is the unparseable string `"oops"` makes `predict_subject`
raise `ValueError` — the inline branch has no `try`/`except` around
`float(pred.get("probability", 0.0))` — contradicting the claim that the
modality would be marked missing.  By contrast the CSV branch behaves as
claimed: a row with unparseable probability marks the modality missing and
aggregation proceeds with the remaining modality. -/
theorem C5_malformed_inline_raises :
    predict_subject (fun _ => none) "S1" [("m", malformedSummary)] (1 / 2)
      = Except.error "ValueError" ∧
    (predict_subject malformedCsvFs "S1"
        [("m", csvOnlySummary), ("n", inlineSummary "S1" (2 / 5) "CN")] (1 / 2)).map
      (fun r => (r.ensemble.probability, r.ensemble.missing_modules))
      = Except.ok (some (2 / 5), ["m"]) := by
  constructor
  · rfl
  · norm_num [predict_subject, aggLoop, stepMod,
      show lookupPred malformedCsvFs "S1" csvOnlySummary = none by rfl,
      show lookupPred malformedCsvFs "S1" (inlineSummary "S1" (2 / 5) "CN") = some { subject_id := some "S1", predicted_label := some "CN", probability := some (PyVal.num (2 / 5)) } by rfl,
      show procPred { subject_id := some "S1", predicted_label := some "CN", probability := some (PyVal.num (2 / 5)) } = some (2 / 5, some "CN") by rfl,
      show modWeight (inlineSummary "S1" (2 / 5) "CN") = some 1 by rfl,
      show csvOnlySummary.interpretation = "csv only" by rfl,
      initSt, Except.map]

/-- C6: with at least one contributing modality, if every found probability
lies in [0,1] and every derived weight is positive, the returned ensemble
probability lies in [0,1]. -/
theorem C6_ensemble_prob_in_unit_interval (fs : String → Option (List CsvRow))
    (sid : String) (results : List (String × Summary)) (t : ℚ) (r : Report) (q : ℚ)
    (hbp : ∀ x ∈ results, ∀ p pr lbl, lookupPred fs sid x.2 = some p →
      procPred p = some (pr, lbl) → 0 ≤ pr ∧ pr ≤ 1)
    (hbw : ∀ x ∈ results, ∀ w, modWeight x.2 = some w → 0 < w)
    (hok : predict_subject fs sid results t = Except.ok r)
    (hq : r.ensemble.probability = some q) :
    0 ≤ q ∧ q ≤ 1 := by
  obtain ⟨st, hloop, _, _, _, hcase⟩ := predict_subject_ok_shape fs sid results t r hok
  rcases hcase with ⟨_, hnone, _, _⟩ | ⟨hne, _, hprob, _, _⟩
  · rw [hq] at hnone; cases hnone
  · rw [hq] at hprob
    injection hprob with he
    obtain ⟨hwpos, hp0, hple⟩ := aggLoop_bounds fs sid results initSt st hloop hbp hbw
      (by simp [initSt]) (by simp [initSt]) (by simp [initSt])
    have hsum : 0 < st.weights.sum := List.sum_pos st.weights hwpos hne
    subst he
    exact ⟨div_nonneg hp0 (le_of_lt hsum), (div_le_one hsum).mpr hple⟩

/-- Witness for C6 at a concrete input: one contributing modality with
probability 0.3 in [0,1] and positive weight 0.9. -/
theorem C6_witness : (0 : ℚ) ≤ 3 / 10 ∧ (3 : ℚ) / 10 ≤ 1 :=
  C6_ensemble_prob_in_unit_interval (fun _ => none) "S1" [("m", weightedSummary)]
    (1 / 2) weightedReport (3 / 10)
    (by
      intro x hx p pr lbl hl hp
      simp only [List.mem_singleton] at hx
      subst hx
      rw [show lookupPred (fun _ => none) "S1" weightedSummary = some weightedSummaryPred by rfl] at hl
      injection hl with hl
      subst hl
      rw [show procPred weightedSummaryPred = some (3 / 10, some "CN") by rfl] at hp
      injection hp with hp
      have hpr : pr = 3 / 10 := congrArg Prod.fst hp.symm
      subst hpr
      norm_num)
    (by
      intro x hx w hw
      simp only [List.mem_singleton] at hx
      subst hx
      rw [modWeight_weightedSummary] at hw
      injection hw with hw
      subst hw
      norm_num)
    (by norm_num [predict_subject, aggLoop, stepMod,
      show lookupPred (fun _ => none) "S1" weightedSummary = some weightedSummaryPred by rfl,
      show procPred weightedSummaryPred = some (3 / 10, some "CN") by rfl,
      modWeight_weightedSummary,
      initSt, weightedReport])
    (by norm_num [weightedReport])

end Alz

namespace Alz

/-- C7 counterexample: the simulation path computes the label from the
clamped probability but stores that probability rounded to 3 decimals, so a
raw draw of 0.4996 is labelled `"CN"` while its stored probability is
exactly 0.5 — falsifying "label is AD iff stored probability >= 0.5". -/
theorem C7_counterexample :
    ¬ labelProbInvariant (simPredEntry "SUBJ001" (4996 / 10000)) := by
  have hpred : simPredEntry "SUBJ001" (4996 / 10000)
      = Pred.mk (some "SUBJ001") (some "CN") (some (PyVal.num (1 / 2))) := by
    norm_num [simPredEntry, clampProb, round3, roundHalfEven]
  rw [hpred]
  intro h
  have hcontra : (some "CN" : Option String) = some "AD" :=
    h.mpr ⟨1 / 2, rfl, le_refl _⟩
  simp at hcontra

/-- C7 (amended): for every SubjectPrediction built by the simulation path,
the stored label is `"AD"` iff the clamped pre-rounding probability is at
least 0.5; the stored probability is that value rounded to 3 decimals, so
the stored-probability form of the invariant can fail only on a raw draw
whose clamped value lies in [0.4995, 0.5). -/
theorem C7_label_matches_unrounded_probability (sid : String) (g : ℚ) :
    (simPredEntry sid g).predicted_label = some "AD" ↔ 1 / 2 ≤ clampProb g := by
  simp only [simPredEntry]
  split_ifs with h <;> simp [h] <;> simpa using h

end Alz

namespace Alz

/-- C8: for every module in the fixed sequence of `run_all_analyses`, a
raised exception is caught and recorded as a summary with status `"error"`
(and the `"Module raised exception: ..."` interpretation), and the returned
mapping has an entry for every module regardless of failures, so one
failing modality never aborts the batch. -/
theorem C8_orchestrator_catches_failures (f : String → Except String Summary) :
    ((run_all_analyses f).map Prod.fst = moduleNames) ∧
    (∀ n e, n ∈ moduleNames → f n = Except.error e →
      (n, mkErrorSummary e) ∈ run_all_analyses f ∧ (mkErrorSummary e).status = "error") := by
  constructor
  · rw [run_all_analyses, List.map_map]
    exact List.map_id moduleNames
  · intro n e hn hfe
    refine ⟨?_, rfl⟩
    have hfn : (n, mkErrorSummary e)
        = (fun nm => (nm, match f nm with
            | Except.ok s => s
            | Except.error e2 => mkErrorSummary e2)) n := by
      simp [hfe]
    rw [hfn]
    exact List.mem_map_of_mem _ hn

/-- Witness for C8: a module function that always raises still yields one
entry per module, with the failing module recorded as an error summary. -/
theorem C8_witness :
    ((run_all_analyses (fun _ => Except.error "boom")).map Prod.fst = moduleNames) ∧
    (("eeg", mkErrorSummary "boom") ∈ run_all_analyses (fun _ => Except.error "boom") ∧
      (mkErrorSummary "boom").status = "error") :=
  ⟨(C8_orchestrator_catches_failures (fun _ => Except.error "boom")).1,
   (C8_orchestrator_catches_failures (fun _ => Except.error "boom")).2 "eeg" "boom"
     (by decide) rfl⟩

/-- C9: `predict_subject` is deterministic — two calls with the same file
contents, subject id, results mapping and threshold return reports with
identical `ensemble` and `final_label` fields. -/
theorem C9_deterministic (fs1 fs2 : String → Option (List CsvRow))
    (sid1 sid2 : String) (res1 res2 : List (String × Summary)) (t1 t2 : ℚ)
    (r1 r2 : Report)
    (hfs : ∀ pth, fs1 pth = fs2 pth) (hsid : sid1 = sid2) (hres : res1 = res2)
    (ht : t1 = t2)
    (h1 : predict_subject fs1 sid1 res1 t1 = Except.ok r1)
    (h2 : predict_subject fs2 sid2 res2 t2 = Except.ok r2) :
    r1.ensemble = r2.ensemble ∧ r1.final_label = r2.final_label := by
  have hf : fs1 = fs2 := funext hfs
  subst hf
  subst hsid
  subst hres
  subst ht
  rw [h1] at h2
  injection h2 with h2
  subst h2
  exact ⟨rfl, rfl⟩

/-- Witness for C9: the same concrete query evaluated twice. -/
theorem C9_witness : repeatedReport.ensemble = repeatedReport.ensemble ∧
    repeatedReport.final_label = repeatedReport.final_label :=
  C9_deterministic (fun _ => none) (fun _ => none) "S2" "S2"
    [("m", inlineSummary "S2" (2 / 5) "CN")] [("m", inlineSummary "S2" (2 / 5) "CN")]
    (1 / 2) (1 / 2) repeatedReport repeatedReport
    (fun _ => rfl) rfl rfl rfl
    (by norm_num [predict_subject, aggLoop, stepMod,
      show lookupPred (fun _ => none) "S2" (inlineSummary "S2" (2 / 5) "CN") = some { subject_id := some "S2", predicted_label := some "CN", probability := some (PyVal.num (2 / 5)) } by rfl,
      show procPred { subject_id := some "S2", predicted_label := some "CN", probability := some (PyVal.num (2 / 5)) } = some (2 / 5, some "CN") by rfl,
      show modWeight (inlineSummary "S2" (2 / 5) "CN") = some 1 by rfl,
      initSt, repeatedReport])
    (by norm_num [predict_subject, aggLoop, stepMod,
      show lookupPred (fun _ => none) "S2" (inlineSummary "S2" (2 / 5) "CN") = some { subject_id := some "S2", predicted_label := some "CN", probability := some (PyVal.num (2 / 5)) } by rfl,
      show procPred { subject_id := some "S2", predicted_label := some "CN", probability := some (PyVal.num (2 / 5)) } = some (2 / 5, some "CN") by rfl,
      show modWeight (inlineSummary "S2" (2 / 5) "CN") = some 1 by rfl,
      initSt, repeatedReport])

/-- C10: every input modality name appears exactly once in `per_module` (in
input order); the count of contributing modules plus the missing list's
length equals the number of input modalities, and `missing_modules` lists
exactly the modalities whose entry is missing. -/
theorem C10_per_module_partition (fs : String → Option (List CsvRow))
    (sid : String) (results : List (String × Summary)) (t : ℚ) (r : Report)
    (hok : predict_subject fs sid results t = Except.ok r) :
    r.per_module.map Prod.fst = results.map Prod.fst ∧
    ((results.map Prod.fst).Nodup →
      ∀ nm ∈ results.map Prod.fst, (r.per_module.map Prod.fst).count nm = 1) ∧
    r.ensemble.available_modules + r.ensemble.missing_modules.length = results.length ∧
    r.ensemble.missing_modules
      = (r.per_module.filter (fun y => y.2.isMissing)).map Prod.fst := by
  obtain ⟨st, hloop, hpm, hav, hmm, _⟩ := predict_subject_ok_shape fs sid results t r hok
  obtain ⟨h1, h2, h3⟩ := aggLoop_struct fs sid results initSt st hloop
  have hmap : r.per_module.map Prod.fst = results.map Prod.fst := by
    rw [hpm, h1]
    simp [initSt]
  refine ⟨hmap, ?_, ?_, ?_⟩
  · intro hnd nm hnm
    rw [hmap]
    exact List.count_eq_one_of_mem hnd hnm
  · rw [hav, hmm]
    simpa [initSt] using h2
  · rw [hmm, hpm]
    exact h3 (by simp [initSt])

/-- Witness for C10 at a concrete two-modality input with one contributing
and one missing modality. -/
theorem C10_witness :
    partitionReport.per_module.map Prod.fst = c10Results.map Prod.fst ∧
    ((c10Results.map Prod.fst).Nodup →
      ∀ nm ∈ c10Results.map Prod.fst,
        (partitionReport.per_module.map Prod.fst).count nm = 1) ∧
    partitionReport.ensemble.available_modules
      + partitionReport.ensemble.missing_modules.length = c10Results.length ∧
    partitionReport.ensemble.missing_modules
      = (partitionReport.per_module.filter (fun y => y.2.isMissing)).map Prod.fst :=
  C10_per_module_partition (fun _ => none) "S1" c10Results (1 / 2) partitionReport
    (by norm_num [predict_subject, aggLoop, stepMod, c10Results,
      show lookupPred (fun _ => none) "S1" weightedSummary = some weightedSummaryPred by rfl,
      show lookupPred (fun _ => none) "S1" (inlineSummary "ZZ" (1 / 2) "AD") = none by rfl,
      show procPred weightedSummaryPred = some (3 / 10, some "CN") by rfl,
      modWeight_weightedSummary,
      show (inlineSummary "ZZ" (1 / 2) "AD").interpretation = "demo" by rfl,
      initSt, partitionReport])

end Alz
